import Mathlib

/-!
# Verification of the BikeSpace dashboard shared filtering/state subsystem

Shallow embedding of `src/bikespace_dashboard/js/components/main.js`:
the `SharedState` store, the `ReportFilter` hierarchy and its four
variants, filter composition (`applyFilters`), component registration
and the refresh broadcast.  External collaborators (`parseParkingTime`
from `api_tools.js`, luxon `Interval`/`DateTime`) are modelled from the
spec where noted.
-/

namespace Bikespace

/-- Modelled from the spec: `parseParkingTime` (in `api_tools.js`, not
under `src/`) parses a report's `parking_time` into a timezone-aware
luxon `DateTime`.  The only facets of the parsed value that `main.js`
uses are its instant on the time line (for `Interval.contains`) and its
ISO weekday (1 = Monday … 7 = Sunday), so we model the parsed result as
a record of those two fields. -/
structure DateTime where
  ts : Int
  weekday : Nat
  deriving DecidableEq, Repr

/-- Modelled from the spec: a luxon `Interval` (external library) is a
half-open time interval `[start, stop)`; `contains dt` holds iff
`start ≤ dt < stop` (boundary exclusive on the upper bound, §8 of the
spec). -/
structure Interval where
  start : Int
  stop : Int
  deriving DecidableEq, Repr

def Interval.contains (i : Interval) (dt : DateTime) : Bool :=
  decide (i.start ≤ dt.ts) && decide (dt.ts < i.stop)

/-- A report record (spec §3): the fields that the filters read.
`parking_time` carries the parsed `DateTime` (see `parseParkingTime`). -/
structure Report where
  id : Nat
  issues : List String
  parking_time : DateTime
  parking_duration : String
  deriving DecidableEq, Repr

/-- Modelled from the spec: the parse of `report.parking_time`; since the
report already carries the parsed instant in this embedding, the parse
returns it. -/
def parseParkingTime (t : DateTime) : DateTime := t

/-- The `ReportFilter` hierarchy of `main.js` as a tagged union: each
variant carries its `_state` list as stored after construction. -/
inductive ReportFilter
  | issues (state : List String)
  | dateRange (state : List Interval)
  | weekDayPeriod (state : List String)
  | parkingDuration (state : List String)
  deriving DecidableEq, Repr

/-- `WeekDayPeriodFilter.#dayIndex` (main.js lines 229-237): weekday
name → ISO weekday index; an unlisted name indexes to `undefined`,
modelled as `none`. -/
def dayIndex (s : String) : Option Nat :=
  if s = "monday" then some 1
  else if s = "tuesday" then some 2
  else if s = "wednesday" then some 3
  else if s = "thursday" then some 4
  else if s = "friday" then some 5
  else if s = "saturday" then some 6
  else if s = "sunday" then some 7
  else none

/-- `test` dispatch over the four variants (main.js lines 202-204,
218-224, 248-253, 272-274):
* `issues`: `report.issues.some(value => this._state.includes(value))`;
* `dateRange`: loop over `_state`, `return true` on the first interval
  containing the parsed parking time, else `false`;
* `weekDayPeriod`: `this._state.map(x => this.#dayIndex[x])` then
  `.includes(dt.weekday)` — the report's weekday is a number, so the
  comparison against the mapped entries is `some dt.weekday`;
* `parkingDuration`: `this._state.includes(report['parking_duration'])`. -/
def ReportFilter.test : ReportFilter → Report → Bool
  | .issues st, r => r.issues.any (fun v => st.contains v)
  | .dateRange st, r =>
      st.any (fun i => i.contains (parseParkingTime r.parking_time))
  | .weekDayPeriod st, r =>
      (st.map dayIndex).contains (some (parseParkingTime r.parking_time).weekday)
  | .parkingDuration st, r => st.contains r.parking_duration

/-- `IssuesFilter` constructor (lines 193-195): stores `state`. -/
def IssuesFilter (state : List String) : ReportFilter := .issues state

/-- `DateRangeFilter` constructor (lines 214-216): stores `state`. -/
def DateRangeFilter (state : List Interval) : ReportFilter := .dateRange state

/-- JavaScript `String.prototype.toLowerCase()`, modelled as
per-character lowercasing (exact for the ASCII weekday names this
filter is used with). -/
def jsStringToLower (s : String) : String :=
  ⟨s.data.map Char.toLower⟩

/-- `WeekDayPeriodFilter` constructor (lines 243-246): stores
`state.map(x => x.toLowerCase())`. -/
def WeekDayPeriodFilter (state : List String) : ReportFilter :=
  .weekDayPeriod (state.map jsStringToLower)

/-- `ParkingDurationFilter` constructor (lines 263-265): stores `state`. -/
def ParkingDurationFilter (state : List String) : ReportFilter := .parkingDuration state

/-- A `FilterState`: the store's `_filters` object, an insertion-ordered
mapping from filter key to `ReportFilter` (JS object with string keys;
`Object.entries` yields insertion order). -/
abbrev FilterState := List (String × ReportFilter)

/-- `SharedState.applyFilters` (main.js lines 75-86) with the dataset
`this.response_data` as explicit parameter `D`:

```js
const filter_list = Object.entries(filters);
if (filter_list.length > 0) {
  let return_data = this.response_data;
  for (const [filterKey, reportFilter] of filter_list) {
    return_data = return_data.filter(r => reportFilter.test(r));
  }
  return return_data;
} else {
  return this.response_data;
}
``` -/
def applyFilters (D : List Report) (filters : FilterState) : List Report :=
  if filters.length > 0 then
    filters.foldl (fun return_data kf => return_data.filter (fun r => kf.2.test r)) D
  else
    D

/-- A registered component: the store only reads its `root_id` (to derive
the registry key) and calls its `refresh()` (modelled as an emitted
event, see `Event`). -/
structure Component where
  root_id : String
  deriving DecidableEq, Repr

/-- `elementIdToComponentKey` (main.js line 4):
`id => id.replace('-', '_')`.  JavaScript `String.prototype.replace`
with a string pattern replaces only the FIRST occurrence. -/
def replaceFirstChar : List Char → Char → Char → List Char
  | [], _, _ => []
  | c :: cs, a, b => if c = a then b :: cs else c :: replaceFirstChar cs a b

def elementIdToComponentKey (id : String) : String :=
  ⟨replaceFirstChar id.data '-' '_'⟩

/-- JS object assignment `obj[key] = v` on a string-keyed object
modelled as an insertion-ordered association list: assigning an
existing key overwrites in place (keeping its position in insertion
order), a new key is appended. -/
def objSet {α : Type} (m : List (String × α)) (k : String) (v : α) :
    List (String × α) :=
  if m.any (fun p => p.1 = k) then
    m.map (fun p => if p.1 = k then (k, v) else p)
  else
    m ++ [(k, v)]

/-- First-binding lookup `obj[key]` on the association-list model. -/
def objGet {α : Type} (m : List (String × α)) (k : String) : Option α :=
  (m.find? (fun p => p.1 = k)).map (fun p => p.2)

/-- The `SharedState` store (main.js lines 10-91): component registry,
`_filters`, the immutable `response_data` and the derived
`_display_data`.  (`_router` is routing glue, out of the spec's scope.) -/
structure SharedState where
  components : List (String × Component)
  _filters : FilterState
  response_data : List Report
  _display_data : List Report
  deriving DecidableEq, Repr

/-- `SharedState` constructor (lines 11-24): empty registry, empty
filters, `_display_data` initially the unfiltered submissions. -/
def SharedState.init (submissions : List Report) : SharedState :=
  { components := [], _filters := [],
    response_data := submissions, _display_data := submissions }

/-- `SharedState.registerComponent` (lines 26-30): derive the key,
store the component under it, return the key. -/
def SharedState.registerComponent (s : SharedState) (component : Component) :
    SharedState × String :=
  let key := elementIdToComponentKey component.root_id
  ({ s with components := objSet s.components key component }, key)

/-- Observable actions of the store during a `filters = f` assignment,
in execution order: the `_filters` field assignment, the
`_display_data` recomputation, and each `module.refresh()` call made by
`SharedState.refresh` (identified by the registry key of the component
it is invoked on). -/
inductive Event
  | assignFilters
  | recomputeDisplay
  | refreshComponent (key : String)
  deriving DecidableEq, Repr

/-- `SharedState.refresh` (lines 40-44): iterate
`Object.values(this.components)` in insertion order, calling each
component's `refresh()`; modelled as the emitted event list. -/
def SharedState.refresh (s : SharedState) : List Event :=
  s.components.foldl (fun acc kc => acc ++ [Event.refreshComponent kc.1]) []

/-- `SharedState.applyFilters` as the method (line 75): filters
`this.response_data`. -/
def SharedState.applyFiltersM (s : SharedState) (filters : FilterState) :
    List Report :=
  applyFilters s.response_data filters

/-- `set filters(f)` (main.js lines 50-54), step by step:
`this._filters = f`, then
`this._display_data = this.applyFilters(this._filters)`, then
`this.refresh()`.  Returns the updated store and the event trace. -/
def SharedState.setFilters (s : SharedState) (f : FilterState) :
    SharedState × List Event :=
  let s1 := { s with _filters := f }
  let s2 := { s1 with _display_data := s1.applyFiltersM s1._filters }
  (s2, Event.assignFilters :: Event.recomputeDisplay :: s2.refresh)

/-! ## Dynamic-value model for constructor validation (ReportFilter, lines 147-152)

The constructors receive an arbitrary JavaScript value; the base class
checks `state instanceof Array` and throws otherwise.  We model the
dynamic argument as a structural value tree (reference identity is not
needed for the validation check). -/

inductive JSValue
  | vstr (s : String)
  | vnum (n : Int)
  | vbool (b : Bool)
  | vundefined
  | varray (xs : List JSValue)
  | vobject (fields : List (String × JSValue))

def JSValue.isArray : JSValue → Bool
  | .varray _ => true
  | _ => false

/-- The errors a filter constructor can raise: the base class's
`Error('ReportFilter state must be an Array')` (the spec's
InvalidArgument condition), and a TypeError from calling
`.toLowerCase()` on a non-string (WeekDayPeriodFilter, line 245). -/
inductive JsError
  | invalidArgument
  | typeError
  deriving DecidableEq, Repr

/-- `ReportFilter` base constructor (lines 147-152):
`if (!(state instanceof Array)) throw new Error('ReportFilter state must be an Array'); this._state = state;` -/
def ReportFilter.ctorState (state : JSValue) : Except JsError (List JSValue) :=
  match state with
  | .varray xs => .ok xs
  | _ => .error .invalidArgument

/-- `x.toLowerCase()` on a dynamic value: defined for strings, a
TypeError otherwise. -/
def jsToLowerCase (x : JSValue) : Except JsError JSValue :=
  match x with
  | .vstr s => .ok (.vstr (jsStringToLower s))
  | _ => .error .typeError

/-- `IssuesFilter` constructor on a dynamic argument: just `super(state)`. -/
def IssuesFilter.ctor (state : JSValue) : Except JsError (List JSValue) :=
  ReportFilter.ctorState state

/-- `DateRangeFilter` constructor on a dynamic argument: just `super(state)`. -/
def DateRangeFilter.ctor (state : JSValue) : Except JsError (List JSValue) :=
  ReportFilter.ctorState state

/-- `ParkingDurationFilter` constructor on a dynamic argument: just `super(state)`. -/
def ParkingDurationFilter.ctor (state : JSValue) : Except JsError (List JSValue) :=
  ReportFilter.ctorState state

/-- `Array.prototype.map(x => x.toLowerCase())` on dynamic elements:
left to right, the first TypeError aborts the map. -/
def mapToLower : List JSValue → Except JsError (List JSValue)
  | [] => .ok []
  | x :: xs => do
      let y ← jsToLowerCase x
      let ys ← mapToLower xs
      .ok (y :: ys)

/-- `WeekDayPeriodFilter` constructor on a dynamic argument (lines
243-246): `super(state)` then
`this._state = this._state.map(x => x.toLowerCase())`. -/
def WeekDayPeriodFilter.ctor (state : JSValue) : Except JsError (List JSValue) := do
  let st ← ReportFilter.ctorState state
  mapToLower st

/-! ## Runtime-value model with reference identity (stateEquals/deepEquals,
lines 162-183)

`deepEquals` compares object field values with `!==`, which for object
values is reference comparison; to capture this the model gives objects
explicit heap addresses. -/

/-- `typeof` results for the values in scope (filter states hold
strings, numbers, booleans, `undefined` and objects; `null` does not
occur in any filter state). -/
inductive JsType
  | tstring
  | tnumber
  | tboolean
  | tundefined
  | tobject
  deriving DecidableEq, Repr

/-- A runtime value: primitives are immediate, objects (including
arrays) are heap references. -/
inductive RVal
  | str (s : String)
  | num (n : Int)
  | bool (b : Bool)
  | undef
  | ref (a : Nat)
  deriving DecidableEq, Repr

def RVal.typeOf : RVal → JsType
  | .str _ => .tstring
  | .num _ => .tnumber
  | .bool _ => .tboolean
  | .undef => .tundefined
  | .ref _ => .tobject

/-- JavaScript `===`: primitives by value, objects by reference. -/
def strictEq : RVal → RVal → Bool
  | .str a, .str b => a = b
  | .num a, .num b => a = b
  | .bool a, .bool b => a = b
  | .undef, .undef => true
  | .ref a, .ref b => a = b
  | _, _ => false

/-- The object heap: address → own enumerable fields, in key order
(JS object keys are unique). -/
abbrev RHeap := List (Nat × List (String × RVal))

def lookupObj (h : RHeap) (a : Nat) : List (String × RVal) :=
  ((h.find? (fun p => p.1 = a)).map (fun p => p.2)).getD []

/-- `ReportFilter.deepEquals(x1, x2)` (main.js lines 171-183):

```js
if (typeof x1 !== typeof x2) return false;
if (typeof x1 === 'object') {
  if (Object.keys(x1).length !== Object.keys(x2).length) return false;
  for (const key1 of Object.keys(x1)) {
    if (!(key1 in x2)) return false;
    if (x1[key1] !== x2[key1]) return false;
  }
  return true;
} else {
  return x1 === x2;
}
```

Note the field values are compared with `!==` (one level deep), not
recursively. -/
def deepEquals (h : RHeap) (x1 x2 : RVal) : Bool :=
  if x1.typeOf ≠ x2.typeOf then false
  else
    match x1, x2 with
    | .ref a, .ref b =>
        let o1 := lookupObj h a
        let o2 := lookupObj h b
        decide (o1.length = o2.length) &&
        o1.all (fun kv =>
          match o2.find? (fun kv2 => kv2.1 = kv.1) with
          | some kv2 => strictEq kv.2 kv2.2
          | none => false)
    | y1, y2 => strictEq y1 y2

/-- The index loop of `stateEquals` (lines 165-167): pairwise
`deepEquals` over the two state lists (called after the length check,
so the lists have equal length there). -/
def stateEqualsLoop (h : RHeap) : List RVal → List RVal → Bool
  | [], _ => true
  | _ :: _, [] => true
  | x :: xs, y :: ys => deepEquals h x y && stateEqualsLoop h xs ys

/-- `ReportFilter.stateEquals(otherState)` (lines 162-169) for a filter
whose `_state` is `state`; `other = none` models an argument failing
the `otherState instanceof Array` check. -/
def stateEquals (h : RHeap) (state : List RVal) (other : Option (List RVal)) :
    Bool :=
  match other with
  | none => false
  | some ys => decide (state.length = ys.length) && stateEqualsLoop h state ys

/-- Follows the spec's words (for comparison with the implemented
`deepEquals`): a deep, order-insensitive-in-keys but order-sensitive-in
nothing-else, type-sensitive structural comparison that recurses into
object field values, resolving references through the heap.  `fuel`
bounds the recursion depth (heaps can be cyclic); at fuel 0 the
comparison gives up with `false`. -/
def specDeepEquals (h : RHeap) : Nat → RVal → RVal → Bool
  | 0, _, _ => false
  | fuel + 1, .ref a, .ref b =>
      let o1 := lookupObj h a
      let o2 := lookupObj h b
      decide (o1.length = o2.length) &&
      o1.all (fun kv =>
        match o2.find? (fun kv2 => kv2.1 = kv.1) with
        | some kv2 => specDeepEquals h fuel kv.2 kv2.2
        | none => false)
  | _ + 1, x1, x2 =>
      if x1.typeOf ≠ x2.typeOf then false else strictEq x1 x2

/-! ## Reference model of the `filters` accessors (lines 46-54)

In JavaScript `get filters() { return this._filters; }` returns the
stored object reference itself.  To state what mutation through the
returned value does to the store, the store's `_filters` field is
modelled as a reference into a heap of filter objects. -/

/-- Heap of `FilterState` objects, by address. -/
abbrev FilterHeap := List (Nat × FilterState)

def filterHeapGet (h : FilterHeap) (a : Nat) : FilterState :=
  ((h.find? (fun p => p.1 = a)).map (fun p => p.2)).getD []

/-- In-place mutation of the filter object at address `a` (what a caller
does when it mutates an object it holds a reference to). -/
def filterHeapSet (h : FilterHeap) (a : Nat) (f : FilterState) : FilterHeap :=
  h.map (fun p => if p.1 = a then (a, f) else p)

/-- The store viewed at the reference level: `_filters` is an address. -/
structure SharedStateRef where
  filtersRef : Nat
  deriving DecidableEq, Repr

/-- `get filters()` (lines 46-48): `return this._filters;` — the stored
reference is handed out as-is (no copy is made). -/
def SharedStateRef.getFilters (s : SharedStateRef) : Nat :=
  s.filtersRef

/-- The `FilterState` the store currently sees, resolving its stored
reference through the heap. -/
def SharedStateRef.currentFilters (h : FilterHeap) (s : SharedStateRef) :
    FilterState :=
  filterHeapGet h s.filtersRef

/-! ## Helper lemmas -/

theorem applyFilters_foldl_eq_filter (D : List Report) (F : FilterState) :
    F.foldl (fun return_data kf => return_data.filter (fun r => kf.2.test r)) D
      = D.filter (fun r => F.all (fun kf => kf.2.test r)) := by
  induction F generalizing D with
  | nil => simp
  | cons kf F ih =>
      simp only [List.foldl_cons, ih, List.filter_filter, List.all_cons]
      congr 1
      funext r
      exact Bool.and_comm _ _

theorem applyFilters_eq_filter (D : List Report) (F : FilterState) :
    applyFilters D F = D.filter (fun r => F.all (fun kf => kf.2.test r)) := by
  unfold applyFilters
  rcases F with _ | ⟨kf, F⟩
  · simp
  · simp only [List.length_cons, gt_iff_lt, Nat.succ_pos, if_pos,
      applyFilters_foldl_eq_filter]

theorem all_eq_of_perm {F F' : FilterState} (hp : F.Perm F')
    (p : String × ReportFilter → Bool) : F.all p = F'.all p := by
  rcases hF : F.all p with _ | _
  · rcases hF' : F'.all p with _ | _
    · rfl
    · exfalso
      rw [List.all_eq_true] at hF'
      rw [List.all_eq_false] at hF
      obtain ⟨x, hx, hpx⟩ := hF
      exact hpx (hF' x (hp.mem_iff.mp hx))
  · rcases hF' : F'.all p with _ | _
    · exfalso
      rw [List.all_eq_true] at hF
      rw [List.all_eq_false] at hF'
      obtain ⟨x, hx, hpx⟩ := hF'
      exact hpx (hF x (hp.mem_iff.mpr hx))
    · rfl

/-! ## Claims C4, C5, C6, C10: filter composition -/

/-- C4: `applyFilters(D, F)` keeps exactly the reports passing every
filter in `F` (logical AND across the mapping's entries), and the
result is invariant under permutation of the entry list (commutative in
the key set). -/
theorem C4_applyFilters_and_commutative (D : List Report) (F : FilterState) :
    applyFilters D F = D.filter (fun r => F.all (fun kf => kf.2.test r)) ∧
    (∀ F' : FilterState, F.Perm F' → applyFilters D F = applyFilters D F') := by
  refine ⟨applyFilters_eq_filter D F, fun F' hp => ?_⟩
  rw [applyFilters_eq_filter, applyFilters_eq_filter]
  congr 1
  funext r
  exact all_eq_of_perm hp _

/-- Witness for C4 at a concrete dataset and a transposed two-entry
filter mapping. -/
theorem C4_applyFilters_and_commutative_witness :
    applyFilters
        [{ id := 0, issues := ["full"], parking_time := ⟨0, 6⟩,
           parking_duration := "hours" }]
        [("issues", IssuesFilter ["full"]),
         ("parking_duration", ParkingDurationFilter ["hours"])]
      = applyFilters
        [{ id := 0, issues := ["full"], parking_time := ⟨0, 6⟩,
           parking_duration := "hours" }]
        [("parking_duration", ParkingDurationFilter ["hours"]),
         ("issues", IssuesFilter ["full"])] :=
  (C4_applyFilters_and_commutative _ _).2 _ (List.Perm.swap _ _ _)

/-- C5: filtering never reorders or duplicates: `applyFilters(D, F)` is
a sublist (order-preserving subsequence) of `D`. -/
theorem C5_applyFilters_sublist (D : List Report) (F : FilterState) :
    (applyFilters D F).Sublist D := by
  rw [applyFilters_eq_filter]
  exact List.filter_sublist D

/-- C6: the empty filter mapping is the identity:
`applyFilters(D, {}) = D`. -/
theorem C6_applyFilters_empty_id (D : List Report) :
    applyFilters D [] = D := rfl

/-- C10: a filter constructed with an empty state list rejects every
report, so any filter mapping containing an everywhere-false filter
yields an empty display dataset — unlike the empty mapping, which
yields the full dataset. -/
theorem C10_empty_state_rejects_all :
    (∀ r : Report,
        (IssuesFilter []).test r = false ∧
        (ParkingDurationFilter []).test r = false ∧
        (DateRangeFilter []).test r = false ∧
        (WeekDayPeriodFilter []).test r = false) ∧
    (∀ (D : List Report) (F : FilterState) (kf : String × ReportFilter),
        kf ∈ F → (∀ r : Report, kf.2.test r = false) →
        applyFilters D F = []) ∧
    (∀ D : List Report, applyFilters D [] = D) := by
  refine ⟨fun r => ⟨?_, rfl, rfl, rfl⟩, fun D F kf hmem hfalse => ?_, fun D => rfl⟩
  · simp [IssuesFilter, ReportFilter.test]
  · rw [applyFilters_eq_filter]
    rw [List.filter_eq_nil_iff]
    intro r _
    simp only [Bool.not_eq_true, List.all_eq_false]
    exact ⟨kf, hmem, hfalse r⟩

/-- Witness for C10 at a concrete report and a concrete one-entry
filter mapping with an empty-state filter. -/
theorem C10_empty_state_rejects_all_witness :
    applyFilters
        [{ id := 0, issues := ["full"], parking_time := ⟨0, 6⟩,
           parking_duration := "hours" }]
        [("issues", IssuesFilter [])]
      = [] :=
  C10_empty_state_rejects_all.2.1 _ _ ("issues", IssuesFilter [])
    (List.mem_singleton.mpr rfl)
    (fun r => (C10_empty_state_rejects_all.1 r).1)

/-! ## Claim C1: the filters setter recomputes before broadcasting -/

theorem foldl_append_singleton {α β : Type} (g : α → β) (l : List α)
    (acc : List β) :
    l.foldl (fun acc x => acc ++ [g x]) acc = acc ++ l.map g := by
  induction l generalizing acc with
  | nil => simp
  | cons x l ih => simp [ih]

theorem refresh_eq_map (s : SharedState) :
    s.refresh = s.components.map (fun kc => Event.refreshComponent kc.1) := by
  unfold SharedState.refresh
  rw [foldl_append_singleton]
  simp

/-- C1: an assignment `filters = f` stores `f`, recomputes
`_display_data` as `applyFilters(response_data, f)` with the new
mapping, and its event trace is exactly the field assignment, then the
recomputation, then one `refresh()` per registered component in
registration order; in particular every refresh event comes after the
recomputation, and each registered key is refreshed exactly once. -/
theorem C1_setFilters_recompute_then_broadcast (s : SharedState)
    (f : FilterState) (hnodup : (s.components.map Prod.fst).Nodup) :
    (s.setFilters f).1._filters = f ∧
    (s.setFilters f).1._display_data = applyFilters s.response_data f ∧
    (s.setFilters f).2 =
      Event.assignFilters :: Event.recomputeDisplay ::
        s.components.map (fun kc => Event.refreshComponent kc.1) ∧
    (∀ k : String, k ∈ s.components.map Prod.fst →
        (s.setFilters f).2.count (Event.refreshComponent k) = 1) := by
  refine ⟨rfl, rfl, ?_, ?_⟩
  · show Event.assignFilters :: Event.recomputeDisplay ::
        SharedState.refresh _ = _
    rw [refresh_eq_map]
  · intro k hk
    show (Event.assignFilters :: Event.recomputeDisplay ::
        SharedState.refresh _).count (Event.refreshComponent k) = 1
    rw [refresh_eq_map]
    have hmapmap : (s.components.map (fun kc => Event.refreshComponent kc.1))
        = (s.components.map Prod.fst).map Event.refreshComponent := by
      rw [List.map_map]
      rfl
    rw [List.count_cons_of_ne (by simp), List.count_cons_of_ne (by simp),
      hmapmap,
      List.count_map_of_injective _ Event.refreshComponent
        (fun a b h => by injection h)]
    exact List.count_eq_one_of_mem hnodup hk

/-- Witness for C1: a store with two registered components. -/
theorem C1_setFilters_recompute_then_broadcast_witness :
    (({ components := [("map_area", ⟨"map-area"⟩), ("chart", ⟨"chart"⟩)],
        _filters := [], response_data := [], _display_data := [] } :
          SharedState).setFilters
        [("issues", IssuesFilter ["full"])]).2.count
      (Event.refreshComponent "chart") = 1 :=
  (C1_setFilters_recompute_then_broadcast
      { components := [("map_area", ⟨"map-area"⟩), ("chart", ⟨"chart"⟩)],
        _filters := [], response_data := [], _display_data := [] }
      [("issues", IssuesFilter ["full"])] (by decide)).2.2.2
    "chart" (by decide)

/-- The registry keys of any store remain duplicate-free under
`registerComponent` (assigning an existing key overwrites in place, a
new key is appended once), so the duplicate-freeness hypothesis of the
broadcast theorem is an invariant of every reachable store. -/
theorem registerComponent_preserves_nodup_keys (s : SharedState)
    (c : Component) (h : (s.components.map Prod.fst).Nodup) :
    ((s.registerComponent c).1.components.map Prod.fst).Nodup := by
  show ((objSet s.components (elementIdToComponentKey c.root_id) c).map
      Prod.fst).Nodup
  unfold objSet
  by_cases hany : s.components.any
      (fun p => p.1 = elementIdToComponentKey c.root_id)
  · rw [if_pos hany, List.map_map]
    have : s.components.map
        (Prod.fst ∘ fun p =>
          if p.1 = elementIdToComponentKey c.root_id then
            (elementIdToComponentKey c.root_id, c)
          else p)
        = s.components.map Prod.fst := by
      apply List.map_congr_left
      intro p _
      by_cases hp : p.1 = elementIdToComponentKey c.root_id
      · simp [Function.comp, hp]
      · simp [Function.comp, hp]
    rw [this]
    exact h
  · rw [if_neg hany, List.map_append]
    rw [List.nodup_append]
    refine ⟨h, List.nodup_singleton _, ?_⟩
    intro k hk hk'
    simp only [List.map_cons, List.map_nil, List.mem_singleton] at hk'
    subst hk'
    obtain ⟨p, hp, hpk⟩ := List.mem_map.mp hk
    exact hany (List.any_eq_true.mpr ⟨p, hp, by simpa using hpk⟩)

/-! ## Claim C2: the filters getter hands out a live reference -/

/-- C2 counterexample: the claim says mutating the object returned by
the `filters` read accessor must not change the store's FilterState;
but `get filters()` returns the stored reference itself, so an in-place
mutation through it is visible in the store.  Concretely: a store whose
`_filters` references address 0 in a heap holding the empty mapping
there; mutating the object obtained from the getter changes the
store-visible FilterState. -/
theorem C2_counterexample_getter_aliases :
    SharedStateRef.currentFilters
        (filterHeapSet [(0, [])]
          (SharedStateRef.getFilters ⟨0⟩)
          [("issues", ReportFilter.issues ["full"])])
        ⟨0⟩
      ≠ SharedStateRef.currentFilters [(0, [])] ⟨0⟩ := by decide

/-- C2 amended: the `filters` read accessor returns the live internal
reference (no defensive copy): mutating the object it returns replaces
the store-visible FilterState with exactly the mutated value, whenever
the store's filters object is in the heap. -/
theorem C2_amended_getter_returns_live_reference (h : FilterHeap)
    (s : SharedStateRef) (f : FilterState)
    (hmem : s.filtersRef ∈ h.map Prod.fst) :
    SharedStateRef.currentFilters (filterHeapSet h s.getFilters f) s = f := by
  show filterHeapGet (filterHeapSet h s.filtersRef f) s.filtersRef = f
  induction h with
  | nil => simp at hmem
  | cons p h ih =>
      by_cases hp : p.1 = s.filtersRef
      · unfold filterHeapSet filterHeapGet
        simp only [List.map_cons, if_pos hp]
        rw [List.find?_cons_of_pos _ (by simp)]
        rfl
      · have hmem' : s.filtersRef ∈ h.map Prod.fst := by
          simp only [List.map_cons, List.mem_cons] at hmem
          rcases hmem with h1 | h1
          · exact absurd h1.symm hp
          · exact h1
        unfold filterHeapSet filterHeapGet at ih ⊢
        simp only [List.map_cons, if_neg hp]
        rw [List.find?_cons_of_neg _ (by simp [hp])]
        exact ih hmem'

/-- Witness for C2 amended at a concrete heap and store. -/
theorem C2_amended_getter_returns_live_reference_witness :
    SharedStateRef.currentFilters
        (filterHeapSet [(0, [])] (SharedStateRef.getFilters ⟨0⟩)
          [("issues", ReportFilter.issues ["full"])])
        ⟨0⟩
      = [("issues", ReportFilter.issues ["full"])] :=
  C2_amended_getter_returns_live_reference [(0, [])] ⟨0⟩
    [("issues", ReportFilter.issues ["full"])] (by decide)

/-! ## Claim C3: distinct root identifiers and the component registry -/

theorem find?_map_overwrite {α : Type} (m : List (String × α)) (k k' : String)
    (v : α) (hne : k' ≠ k) :
    (m.map (fun p => if p.1 = k' then (k', v) else p)).find?
        (fun p => p.1 = k)
      = m.find? (fun p => p.1 = k) := by
  induction m with
  | nil => rfl
  | cons p m ih =>
      by_cases hpk' : p.1 = k'
      · have hpk : ¬(p.1 = k) := fun hc => hne (hpk' ▸ hc)
        simp only [List.map_cons, if_pos hpk']
        rw [List.find?_cons_of_neg _ (by simp [hne]),
          List.find?_cons_of_neg _ (by simp [hpk])]
        exact ih
      · simp only [List.map_cons, if_neg hpk']
        by_cases hpk : p.1 = k
        · rw [List.find?_cons_of_pos _ (by simp [hpk]),
            List.find?_cons_of_pos _ (by simp [hpk])]
        · rw [List.find?_cons_of_neg _ (by simp [hpk]),
            List.find?_cons_of_neg _ (by simp [hpk])]
          exact ih

theorem find?_append_singleton_ne {α : Type} (m : List (String × α))
    (k k' : String) (v : α) (hne : k' ≠ k) :
    (m ++ [(k', v)]).find? (fun p => p.1 = k)
      = m.find? (fun p => p.1 = k) := by
  induction m with
  | nil =>
      simp only [List.nil_append, List.find?_nil]
      rw [List.find?_cons_of_neg _ (by simp [hne])]
      rfl
  | cons p m ih =>
      by_cases hpk : p.1 = k
      · rw [List.cons_append, List.find?_cons_of_pos _ (by simp [hpk]),
          List.find?_cons_of_pos _ (by simp [hpk])]
      · rw [List.cons_append, List.find?_cons_of_neg _ (by simp [hpk]),
          List.find?_cons_of_neg _ (by simp [hpk])]
        exact ih

theorem objGet_objSet_self {α : Type} (m : List (String × α)) (k : String)
    (v : α) : objGet (objSet m k v) k = some v := by
  unfold objSet objGet
  by_cases hany : m.any (fun p => p.1 = k)
  · rw [if_pos hany]
    induction m with
    | nil => simp at hany
    | cons p m ih =>
        by_cases hp : p.1 = k
        · simp only [List.map_cons, if_pos hp]
          rw [List.find?_cons_of_pos _ (by simp)]
          rfl
        · simp only [List.any_cons] at hany
          have hm : m.any (fun p => p.1 = k) := by
            rcases Bool.or_eq_true_iff.mp hany with h1 | h1
            · exact absurd (by simpa using h1) hp
            · exact h1
          simp only [List.map_cons]
          rw [if_neg hp, List.find?_cons_of_neg _ (by simp [hp])]
          exact ih hm
  · rw [if_neg hany]
    have hnone : m.find? (fun p => p.1 = k) = none := by
      rw [List.find?_eq_none]
      intro p hp
      simp only [decide_eq_true_eq]
      intro hc
      exact hany (List.any_eq_true.mpr ⟨p, hp, by simpa using hc⟩)
    induction m with
    | nil =>
        rw [List.nil_append, List.find?_cons_of_pos _ (by simp)]
        rfl
    | cons p m ih =>
        have hp : ¬(p.1 = k) := by
          intro hc
          exact hany (List.any_eq_true.mpr ⟨p, List.mem_cons_self p m,
            by simpa using hc⟩)
        have hany' : ¬(m.any (fun p => p.1 = k) = true) := by
          intro hc
          obtain ⟨q, hq, hqk⟩ := List.any_eq_true.mp hc
          exact hany (List.any_eq_true.mpr ⟨q, List.mem_cons_of_mem p hq, hqk⟩)
        have hnone' : m.find? (fun p => p.1 = k) = none := by
          rw [List.find?_eq_none]
          intro q hq
          simp only [decide_eq_true_eq]
          intro hc
          exact hany' (List.any_eq_true.mpr ⟨q, hq, by simpa using hc⟩)
        rw [List.cons_append, List.find?_cons_of_neg _ (by simp [hp])]
        exact ih hany' hnone'

theorem objGet_objSet_ne {α : Type} (m : List (String × α)) (k k' : String)
    (v : α) (hne : k' ≠ k) : objGet (objSet m k' v) k = objGet m k := by
  unfold objSet objGet
  by_cases hany : m.any (fun p => p.1 = k')
  · rw [if_pos hany, find?_map_overwrite m k k' v hne]
  · rw [if_neg hany, find?_append_singleton_ne m k k' v hne]

/-- C3 counterexample: the root identifiers `"a-b"` and `"a_b"` are
distinct strings, yet both normalize (first `'-'` replaced by `'_'`,
the JS `String.replace` semantics of `elementIdToComponentKey`) to the
key `"a_b"`, so the second `registerComponent` overwrites the first:
the registry holds one entry, not two. -/
theorem C3_counterexample_distinct_ids_collide :
    ("a-b" : String) ≠ "a_b" ∧
    elementIdToComponentKey "a-b" = elementIdToComponentKey "a_b" ∧
    ((((SharedState.init []).registerComponent ⟨"a-b"⟩).1.registerComponent
        ⟨"a_b"⟩).1).components.length = 1 := by
  refine ⟨by decide, by decide, ?_⟩
  rfl

/-- C3 amended: two `registerComponent` calls produce two distinct
registry entries whenever the *normalized keys* of the two root
identifiers (first `'-'` replaced by `'_'`) are distinct; with equal
normalized keys the second registration silently overwrites the first,
even for distinct identifiers. -/
theorem C3_amended_distinct_keys_two_entries (s : SharedState)
    (c1 c2 : Component)
    (hk : elementIdToComponentKey c1.root_id
        ≠ elementIdToComponentKey c2.root_id) :
    objGet (((s.registerComponent c1).1.registerComponent c2).1).components
        (elementIdToComponentKey c1.root_id) = some c1 ∧
    objGet (((s.registerComponent c1).1.registerComponent c2).1).components
        (elementIdToComponentKey c2.root_id) = some c2 := by
  unfold SharedState.registerComponent
  constructor
  · rw [objGet_objSet_ne _ _ _ _ (Ne.symm hk)]
    exact objGet_objSet_self _ _ _
  · exact objGet_objSet_self _ _ _

/-- Witness for C3 amended: identifiers `"map-area"` and `"side-bar"`
normalize to distinct keys and both land in the registry. -/
theorem C3_amended_distinct_keys_two_entries_witness :
    objGet ((((SharedState.init []).registerComponent
          ⟨"map-area"⟩).1.registerComponent ⟨"side-bar"⟩).1).components
        (elementIdToComponentKey "map-area") = some ⟨"map-area"⟩ ∧
    objGet ((((SharedState.init []).registerComponent
          ⟨"map-area"⟩).1.registerComponent ⟨"side-bar"⟩).1).components
        (elementIdToComponentKey "side-bar") = some ⟨"side-bar"⟩ :=
  C3_amended_distinct_keys_two_entries (SharedState.init []) ⟨"map-area"⟩
    ⟨"side-bar"⟩ (by decide)

/-! ## Claim C7: constructor validation -/

theorem mapToLower_ne_invalidArgument (xs : List JSValue) :
    mapToLower xs ≠ .error .invalidArgument := by
  induction xs with
  | nil => intro hc; cases hc
  | cons x xs ih =>
      rcases x with s | n | b | _ | ys | fs
      · rcases hm : mapToLower xs with e | ys
        · intro hc
          simp only [mapToLower, jsToLowerCase, hm] at hc
          cases hc
          exact ih hm
        · intro hc
          simp only [mapToLower, jsToLowerCase, hm] at hc
          cases hc
      all_goals
        intro hc
        simp only [mapToLower, jsToLowerCase] at hc
        cases hc

/-- C7: each of the four filter constructors raises the base class's
`Error('ReportFilter state must be an Array')` (the spec's
InvalidArgument condition) exactly when the `state` argument is not an
array.  The constructors are pure functions of their argument and never
touch a `SharedState`, so a failed construction cannot corrupt any
store state. -/
theorem C7_ctor_invalidArgument_iff_not_array (state : JSValue) :
    (IssuesFilter.ctor state = .error .invalidArgument
        ↔ state.isArray = false) ∧
    (DateRangeFilter.ctor state = .error .invalidArgument
        ↔ state.isArray = false) ∧
    (ParkingDurationFilter.ctor state = .error .invalidArgument
        ↔ state.isArray = false) ∧
    (WeekDayPeriodFilter.ctor state = .error .invalidArgument
        ↔ state.isArray = false) := by
  have hbase : ReportFilter.ctorState state = .error .invalidArgument
      ↔ state.isArray = false := by
    rcases state with s | n | b | _ | xs | fs <;>
      simp [ReportFilter.ctorState, JSValue.isArray]
  refine ⟨hbase, hbase, hbase, ?_⟩
  rcases hs : ReportFilter.ctorState state with e | st
  · have he : e = .invalidArgument := by
      rcases state with s | n | b | _ | xs | fs <;>
        simp only [ReportFilter.ctorState] at hs <;>
        first
          | (injection hs with h1; exact h1.symm)
          | cases hs
    subst he
    constructor
    · intro _
      exact hbase.mp hs
    · intro _
      show (ReportFilter.ctorState state >>= fun st => mapToLower st)
          = .error .invalidArgument
      rw [hs]
      rfl
  · have harr : state.isArray = true := by
      rcases state with s | n | b | _ | xs | fs <;>
        simp only [ReportFilter.ctorState] at hs <;>
        first
          | rfl
          | cases hs
    constructor
    · intro hc
      exfalso
      have hthis : (ReportFilter.ctorState state >>= fun st => mapToLower st)
          = .error .invalidArgument := hc
      rw [hs] at hthis
      exact mapToLower_ne_invalidArgument st hthis
    · intro hc
      rw [harr] at hc
      cases hc

/-- Witness for C7 at a concrete non-array argument. -/
theorem C7_ctor_invalidArgument_iff_not_array_witness :
    IssuesFilter.ctor (JSValue.vnum 5) = .error .invalidArgument :=
  (C7_ctor_invalidArgument_iff_not_array (JSValue.vnum 5)).1.mpr rfl

/-! ## Claim C8: WeekDayPeriodFilter weekday membership and case
insensitivity -/

/-- C8: with state `["Saturday", "Sunday"]` the weekday filter accepts
any report whose parsed parking time falls on ISO weekday 6 (Saturday)
and rejects one on ISO weekday 3 (Wednesday); and because the
constructor lowercases its input, the accepted set depends only on the
lowercased state, so any two state lists equal up to letter case test
identically — in particular `["SATURDAY", "SUNDAY"]` behaves exactly
like `["saturday", "sunday"]`. -/
theorem C8_weekDayPeriodFilter_saturday (r : Report) :
    ((parseParkingTime r.parking_time).weekday = 6 →
        (WeekDayPeriodFilter ["Saturday", "Sunday"]).test r = true) ∧
    ((parseParkingTime r.parking_time).weekday = 3 →
        (WeekDayPeriodFilter ["Saturday", "Sunday"]).test r = false) ∧
    (∀ s1 s2 : List String, s1.map jsStringToLower = s2.map jsStringToLower →
        (WeekDayPeriodFilter s1).test r = (WeekDayPeriodFilter s2).test r) ∧
    (WeekDayPeriodFilter ["SATURDAY", "SUNDAY"]).test r
      = (WeekDayPeriodFilter ["saturday", "sunday"]).test r := by
  refine ⟨fun h6 => ?_, fun h3 => ?_, fun s1 s2 hcase => ?_, ?_⟩
  · show ((["Saturday", "Sunday"].map jsStringToLower).map dayIndex).contains
        (some (parseParkingTime r.parking_time).weekday) = true
    rw [h6]
    decide
  · show ((["Saturday", "Sunday"].map jsStringToLower).map dayIndex).contains
        (some (parseParkingTime r.parking_time).weekday) = false
    rw [h3]
    decide
  · unfold WeekDayPeriodFilter
    rw [hcase]
  · show ((["SATURDAY", "SUNDAY"].map jsStringToLower).map dayIndex).contains
        (some (parseParkingTime r.parking_time).weekday)
      = ((["saturday", "sunday"].map jsStringToLower).map dayIndex).contains
        (some (parseParkingTime r.parking_time).weekday)
    rfl

/-- Witness for C8 at a concrete report whose parking time falls on a
Saturday. -/
theorem C8_weekDayPeriodFilter_saturday_witness :
    (WeekDayPeriodFilter ["Saturday", "Sunday"]).test
        { id := 0, issues := [], parking_time := ⟨0, 6⟩,
          parking_duration := "hours" }
      = true :=
  (C8_weekDayPeriodFilter_saturday
      { id := 0, issues := [], parking_time := ⟨0, 6⟩,
        parking_duration := "hours" }).1 rfl

/-! ## Claim C9: stateEquals is order- and type-sensitive but only one
level deep -/

theorem stateEqualsLoop_eq_zip_all (h : RHeap) :
    ∀ (st ys : List RVal), st.length = ys.length →
      stateEqualsLoop h st ys
        = (st.zip ys).all (fun p => deepEquals h p.1 p.2) := by
  intro st
  induction st with
  | nil => intro ys _; rfl
  | cons x xs ih =>
      intro ys hlen
      rcases ys with _ | ⟨y, ys⟩
      · cases hlen
      · simp only [stateEqualsLoop, List.zip_cons_cons, List.all_cons]
        rw [ih ys (by simpa using hlen)]

/-- C9 counterexample: the claim says `stateEquals` returns true iff
the lists have equal length and element-wise *deeply* equal values,
but `deepEquals` compares object field values with `!==` (one level
deep).  Heap: objects 0 and 1 each have a single field `a` holding the
distinct but structurally equal objects 2 and 3 (`{x: 1}` each), so
`[{a: {x: 1}}]` and a structurally identical distinct `[{a: {x: 1}}]`
are element-wise deeply equal (per the spec-worded `specDeepEquals`)
yet `stateEquals` returns false. -/
theorem C9_counterexample_not_deep :
    stateEquals
        [(0, [("a", RVal.ref 2)]), (1, [("a", RVal.ref 3)]),
         (2, [("x", RVal.num 1)]), (3, [("x", RVal.num 1)])]
        [RVal.ref 0] (some [RVal.ref 1]) = false ∧
    ([RVal.ref 0] : List RVal).length = ([RVal.ref 1] : List RVal).length ∧
    specDeepEquals
        [(0, [("a", RVal.ref 2)]), (1, [("a", RVal.ref 3)]),
         (2, [("x", RVal.num 1)]), (3, [("x", RVal.num 1)])]
        3 (RVal.ref 0) (RVal.ref 1) = true := by decide

/-- C9 amended: `stateEquals` is an order-sensitive, type-sensitive,
*one-level-deep* comparison: it returns false on a non-array argument,
and on an array it returns true iff the lengths are equal and the
elements are pairwise equal under `deepEquals`, which compares
primitives by strict equality and objects by equal field count, shared
keys, and strictly (reference-)equal field values — nested objects are
compared by reference, not structurally.  The concrete cases of the
claim hold: `["a","b"]` vs `["b","a"]` is false (order-sensitive) and
`[{x:1}]` vs a distinct structurally equal `[{x:1}]` is true. -/
theorem C9_amended_stateEquals_one_level :
    (∀ (h : RHeap) (st : List RVal), stateEquals h st none = false) ∧
    (∀ (h : RHeap) (st ys : List RVal),
        stateEquals h st (some ys)
          = (decide (st.length = ys.length) &&
              (st.zip ys).all (fun p => deepEquals h p.1 p.2))) ∧
    stateEquals [] [RVal.str "a", RVal.str "b"]
        (some [RVal.str "b", RVal.str "a"]) = false ∧
    stateEquals [(0, [("x", RVal.num 1)]), (1, [("x", RVal.num 1)])]
        [RVal.ref 0] (some [RVal.ref 1]) = true := by
  refine ⟨fun h st => rfl, fun h st ys => ?_, by decide, by decide⟩
  show (decide (st.length = ys.length) && stateEqualsLoop h st ys) = _
  by_cases hlen : st.length = ys.length
  · rw [stateEqualsLoop_eq_zip_all h st ys hlen]
  · rw [decide_eq_false hlen, Bool.false_and, Bool.false_and]

end Bikespace
